import Mathlib

/-!
Verification of the coastal-applications-workshop notebooks.

The repository is a set of Jupyter notebooks.  The only original numerical
logic is in the Sentinel-1 water-detection notebook
(`notebooks/examples/03_Sentinel-1_WaterDetection.ipynb`): an adaptive Lee
speckle filter, a histogram-threshold water classifier and a per-pixel
time aggregation.  We embed those computations over exact rationals
(`ℚ` plays the role of the float values; `Option ℚ` models arrays with
NaN/non-finite entries, `none` standing for NaN), and the decibel
conversion over `ℝ` (exact `log`).  Notebook cell structure (for the
pipeline-ordering claim) is transcribed as lists of pipeline steps.
-/

/-- A two-dimensional real-valued raster of height `h` and width `w`,
as handled by the notebooks (one time slice of one band). -/
abbrev Image (h w : ℕ) := Fin h → Fin w → ℚ

/-- A raster that may contain NaN/non-finite pixels (`none` = NaN).
`xarray` bands loaded from STAC items are of this shape. -/
abbrev OImage (h w : ℕ) := Fin h → Fin w → Option ℚ

/-- Index reflection for `scipy.ndimage`'s default boundary mode
`reflect` (`(d c b a | a b c d | d c b a)`): the reflected sample
pattern is periodic with period `2*n`; positions `0..n-1` map to
themselves and positions `n..2n-1` map back to `2n-1-r`. -/
def reflect_nat (n : ℕ) (t : ℤ) : ℕ :=
  let r : ℕ := (t % (2 * (n : ℤ))).toNat
  if r < n then r else 2 * n - 1 - r

lemma reflect_nat_lt (n : ℕ) [NeZero n] (t : ℤ) : reflect_nat n t < n := by
  have hn : 0 < n := Nat.pos_of_ne_zero (NeZero.ne n)
  have h2 : (0 : ℤ) < 2 * (n : ℤ) := by positivity
  have hlt : t % (2 * (n : ℤ)) < 2 * (n : ℤ) := Int.emod_lt_of_pos t h2
  have hge : (0 : ℤ) ≤ t % (2 * (n : ℤ)) := Int.emod_nonneg t (ne_of_gt h2)
  have hr : (t % (2 * (n : ℤ))).toNat < 2 * n := by omega
  unfold reflect_nat
  dsimp only
  split
  · assumption
  · omega

/-- The in-range index sampled at (possibly out-of-range) position `t`. -/
def reflect_index (n : ℕ) [NeZero n] (t : ℤ) : Fin n :=
  ⟨reflect_nat n t, reflect_nat_lt n t⟩

/-- `scipy.ndimage.uniform_filter(img, size)` on a 2-D array: the sliding
mean over a `size × size` window (anchored `size / 2` before the pixel on
each axis, as scipy does), with `reflect` boundary handling. -/
def uniform_filter {h w : ℕ} [NeZero h] [NeZero w]
    (img : Image h w) (size : ℕ) : Image h w :=
  fun i j =>
    (∑ k ∈ Finset.range size, ∑ l ∈ Finset.range size,
        img (reflect_index h ((i : ℤ) - (size / 2 : ℕ) + k))
            (reflect_index w ((j : ℤ) - (size / 2 : ℕ) + l)))
      / (size : ℚ) ^ 2

/-- `img_mean = uniform_filter(img, size)` in `lee_filter`. -/
def img_mean {h w : ℕ} [NeZero h] [NeZero w]
    (img : Image h w) (size : ℕ) : Image h w :=
  uniform_filter img size

/-- `img_sqr_mean = uniform_filter(img**2, size)` in `lee_filter`. -/
def img_sqr_mean {h w : ℕ} [NeZero h] [NeZero w]
    (img : Image h w) (size : ℕ) : Image h w :=
  uniform_filter (fun i j => img i j ^ 2) size

/-- `img_variance = img_sqr_mean - img_mean**2` in `lee_filter`. -/
def img_variance {h w : ℕ} [NeZero h] [NeZero w]
    (img : Image h w) (size : ℕ) : Image h w :=
  fun i j => img_sqr_mean img size i j - img_mean img size i j ^ 2

/-- The mean of all pixel values of the image. -/
def total_mean {h w : ℕ} [NeZero h] [NeZero w] (img : Image h w) : ℚ :=
  (∑ i, ∑ j, img i j) / ((h : ℚ) * (w : ℚ))

/-- `overall_variance = variance(img)` in `lee_filter`
(`scipy.ndimage.variance`: the mean squared deviation of all pixels). -/
def overall_variance {h w : ℕ} [NeZero h] [NeZero w] (img : Image h w) : ℚ :=
  (∑ i, ∑ j, (img i j - total_mean img) ^ 2) / ((h : ℚ) * (w : ℚ))

/-- `img_weights = img_variance / (img_variance + overall_variance)`
in `lee_filter`. -/
def img_weights {h w : ℕ} [NeZero h] [NeZero w]
    (img : Image h w) (size : ℕ) : Image h w :=
  fun i j =>
    img_variance img size i j /
      (img_variance img size i j + overall_variance img)

/-- The divisor of the weight computation in `lee_filter`:
`img_variance + overall_variance`, pixelwise. -/
def lee_divisor {h w : ℕ} [NeZero h] [NeZero w]
    (img : Image h w) (size : ℕ) : Image h w :=
  fun i j => img_variance img size i j + overall_variance img

/-- `lee_filter(da, size)` from the water-detection notebook:
`img_output = img_mean + img_weights * (img - img_mean)`. -/
def lee_filter {h w : ℕ} [NeZero h] [NeZero w]
    (img : Image h w) (size : ℕ) : Image h w :=
  fun i j =>
    img_mean img size i j +
      img_weights img size i j * (img i j - img_mean img size i j)

/-- C1: `lee_filter` computes exactly the adaptive Lee blend: at every
pixel the output is `img_mean + w * (img - img_mean)` with the local mean
given by `uniform_filter`, the local variance by
`uniform_filter(img^2) - img_mean^2`, and the weight
`w = img_variance / (img_variance + overall_variance)`; equivalently, the
output is the noisy pixel blended toward its local mean,
`(1 - w) * img_mean + w * img`. -/
theorem C1_lee_filter_is_adaptive_blend {h w : ℕ} [NeZero h] [NeZero w]
    (img : Image h w) (size : ℕ) (i : Fin h) (j : Fin w) :
    lee_filter img size i j =
      uniform_filter img size i j +
        (img_variance img size i j /
            (img_variance img size i j + overall_variance img)) *
          (img i j - uniform_filter img size i j)
    ∧ img_variance img size i j =
        uniform_filter (fun a b => img a b ^ 2) size i j -
          uniform_filter img size i j ^ 2
    ∧ lee_filter img size i j =
        (1 - img_weights img size i j) * uniform_filter img size i j +
          img_weights img size i j * img i j := by
  refine ⟨rfl, rfl, ?_⟩
  unfold lee_filter img_mean
  ring

/-- Witness for C1 on a concrete `2 × 2` image and window size `3`. -/
theorem C1_lee_filter_is_adaptive_blend_witness :
    lee_filter (fun _ _ => 0 : Image 2 2) 3 0 0 =
      uniform_filter (fun _ _ => 0 : Image 2 2) 3 0 0 +
        (img_variance (fun _ _ => 0 : Image 2 2) 3 0 0 /
            (img_variance (fun _ _ => 0 : Image 2 2) 3 0 0 +
              overall_variance (fun _ _ => 0 : Image 2 2))) *
          ((fun _ _ => 0 : Image 2 2) 0 0 -
            uniform_filter (fun _ _ => 0 : Image 2 2) 3 0 0) :=
  (C1_lee_filter_is_adaptive_blend (fun _ _ => 0) 3 0 0).1

/-- `valid = np.isfinite(data)` for a band: a pixel is valid when it is
not NaN/non-finite (`none`). -/
def valid {h w : ℕ} (da : OImage h w) : Fin h → Fin w → Bool :=
  fun i j => (da i j).isSome

/-- `masked = data.where(valid, 0)`: NaN pixels are replaced by `0`
before the Lee filter is applied. -/
def masked {h w : ℕ} (da : OImage h w) : Image h w :=
  fun i j => (da i j).getD 0

/-- The whole speckle-filtering step of the notebook for one band and one
time slice: zero-fill the NaN pixels, run `lee_filter`, then re-mask with
`.where(valid)` so that NaN pixels stay NaN. -/
def filtered_band {h w : ℕ} [NeZero h] [NeZero w]
    (da : OImage h w) (size : ℕ) : OImage h w :=
  fun i j =>
    if valid da i j then some (lee_filter (masked da) size i j) else none

/-- C5: the speckle-filtering step preserves the null mask: the output is
NaN exactly where the input was NaN, and every finite input pixel gets the
Lee-filtered value computed over the zero-filled array. -/
theorem C5_filtered_band_preserves_null_mask {h w : ℕ} [NeZero h] [NeZero w]
    (da : OImage h w) (size : ℕ) (i : Fin h) (j : Fin w) :
    (filtered_band da size i j = none ↔ da i j = none)
    ∧ (∀ v : ℚ, da i j = some v →
        filtered_band da size i j =
          some (lee_filter (masked da) size i j)) := by
  unfold filtered_band valid
  cases hda : da i j <;> simp [hda]

/-- A concrete `1 × 2` band holding one NaN pixel and one finite pixel,
used to witness the null-mask preservation of the speckle filtering. -/
def nan_and_one_band : OImage 1 2 :=
  fun _ j => if j = 0 then none else some 1

/-- Witness for C5 on a concrete `1 × 2` band holding one NaN pixel and
one finite pixel. -/
theorem C5_filtered_band_preserves_null_mask_witness :
    (filtered_band nan_and_one_band 3 0 0 = none)
    ∧ (filtered_band nan_and_one_band 3 0 1 =
        some (lee_filter (masked nan_and_one_band) 3 0 1)) :=
  ⟨(C5_filtered_band_preserves_null_mask nan_and_one_band 3 0 0).1.mpr
      (by decide),
   (C5_filtered_band_preserves_null_mask nan_and_one_band 3 0 1).2 1
      (by decide)⟩

/-- The square of a mean is at most the mean of the squares (a special
case of the Cauchy-Schwarz inequality), stated for the double sliding-
window sums of `uniform_filter`. -/
lemma double_mean_sq_le_mean_double_sq (s : ℕ) (g : ℕ → ℕ → ℚ) :
    ((∑ k ∈ Finset.range s, ∑ l ∈ Finset.range s, g k l) / (s : ℚ) ^ 2) ^ 2
      ≤ (∑ k ∈ Finset.range s, ∑ l ∈ Finset.range s, g k l ^ 2)
          / (s : ℚ) ^ 2 := by
  rcases Nat.eq_zero_or_pos s with hs | hs
  · subst hs; simp
  · have hc : (0 : ℚ) < (s : ℚ) ^ 2 := by positivity
    rw [← Finset.sum_product' (Finset.range s) (Finset.range s) g,
      ← Finset.sum_product' (Finset.range s) (Finset.range s)
        (fun k l => g k l ^ 2)]
    set S := Finset.range s ×ˢ Finset.range s with hS
    have key : (∑ p ∈ S, g p.1 p.2) ^ 2 ≤
        (S.card : ℚ) * ∑ p ∈ S, g p.1 p.2 ^ 2 :=
      sq_sum_le_card_mul_sum_sq
    have hcard : ((S.card : ℚ)) = (s : ℚ) ^ 2 := by
      rw [hS, Finset.card_product, Finset.card_range]
      push_cast
      ring
    rw [hcard] at key
    rw [div_pow, div_le_div_iff₀ (by positivity) hc]
    calc (∑ p ∈ S, g p.1 p.2) ^ 2 * (s : ℚ) ^ 2
        ≤ ((s : ℚ) ^ 2 * ∑ p ∈ S, g p.1 p.2 ^ 2) * (s : ℚ) ^ 2 :=
          mul_le_mul_of_nonneg_right key (by positivity)
      _ = (∑ p ∈ S, g p.1 p.2 ^ 2) * ((s : ℚ) ^ 2) ^ 2 := by ring

/-- In exact arithmetic the local variance of `lee_filter`
(windowed mean of squares minus square of the windowed mean)
is nonnegative at every pixel. -/
lemma img_variance_nonneg {h w : ℕ} [NeZero h] [NeZero w]
    (img : Image h w) (size : ℕ) (i : Fin h) (j : Fin w) :
    0 ≤ img_variance img size i j := by
  unfold img_variance img_sqr_mean img_mean uniform_filter
  rw [sub_nonneg]
  exact double_mean_sq_le_mean_double_sq size
    (fun k l =>
      img (reflect_index h ((i : ℤ) - (size / 2 : ℕ) + k))
          (reflect_index w ((j : ℤ) - (size / 2 : ℕ) + l)))

/-- An image that takes two different values has positive overall
variance. -/
lemma overall_variance_pos {h w : ℕ} [NeZero h] [NeZero w]
    (img : Image h w) (p p' : Fin h) (q q' : Fin w)
    (hne : img p q ≠ img p' q') : 0 < overall_variance img := by
  have hh : (0 : ℚ) < (h : ℚ) := by
    exact_mod_cast Nat.pos_of_ne_zero (NeZero.ne h)
  have hw : (0 : ℚ) < (w : ℚ) := by
    exact_mod_cast Nat.pos_of_ne_zero (NeZero.ne w)
  unfold overall_variance
  apply div_pos _ (mul_pos hh hw)
  obtain ⟨a, b, hab⟩ : ∃ a b, img a b ≠ total_mean img := by
    by_cases hpq : img p q = total_mean img
    · exact ⟨p', q', fun hc => hne (hpq.trans hc.symm)⟩
    · exact ⟨p, q, hpq⟩
  refine Finset.sum_pos'
    (fun a _ => Finset.sum_nonneg fun b _ => sq_nonneg _)
    ⟨a, Finset.mem_univ a, Finset.sum_pos'
      (fun b _ => sq_nonneg _)
      ⟨b, Finset.mem_univ b, ?_⟩⟩
  exact lt_of_le_of_ne (sq_nonneg _)
    (Ne.symm (pow_ne_zero 2 (sub_ne_zero.mpr hab)))

/-- C6 counterexample: on a constant image both the local and the overall
variance vanish, so the divisor `img_variance + overall_variance` of the
weight computation is zero (the claim asserts it is nonzero for every
input). -/
theorem C6_counterexample_constant_image_divisor_zero :
    lee_divisor (fun _ _ => 0 : Image 2 2) 3 0 0 = 0 := by
  simp [lee_divisor, img_variance, img_sqr_mean, img_mean, uniform_filter,
    overall_variance, total_mean]

/-- C6 amended: at every pixel the divisor `img_variance +
overall_variance` is at least the overall variance (the local variance is
nonnegative in exact arithmetic), so it is nonzero whenever the image is
not constant; on a constant image it is zero and the weight computation
divides zero by zero. -/
theorem C6_amended_lee_divisor_nonzero_unless_constant
    {h w : ℕ} [NeZero h] [NeZero w]
    (img : Image h w) (size : ℕ) (i : Fin h) (j : Fin w) :
    overall_variance img ≤ lee_divisor img size i j
    ∧ ((∃ p p' q q', img p q ≠ img p' q') →
        lee_divisor img size i j ≠ 0) := by
  have hv := img_variance_nonneg img size i j
  constructor
  · unfold lee_divisor
    linarith
  · rintro ⟨p, p', q, q', hne⟩
    have hpos := overall_variance_pos img p p' q q' hne
    have : 0 < lee_divisor img size i j := by
      unfold lee_divisor
      linarith
    exact this.ne'

/-- A concrete non-constant `2 × 2` image: one row of zeros, one row of
ones. -/
def two_level_image : Image 2 2 :=
  fun i _ => if i = 0 then 0 else 1

/-- Witness for the amended C6 on a concrete non-constant image. -/
theorem C6_amended_lee_divisor_nonzero_unless_constant_witness :
    (∃ p p' q q',
        two_level_image p q ≠ two_level_image p' q')
    ∧ lee_divisor two_level_image 3 0 0 ≠ 0 :=
  ⟨⟨0, 1, 0, 0, by decide⟩,
   (C6_amended_lee_divisor_nonzero_unless_constant
      two_level_image 3 0 0).2 ⟨0, 1, 0, 0, by decide⟩⟩

/-- The boolean dataset produced by `S1_water_classifier`
(`.to_dataset(name="s1_water")`). -/
structure S1WaterDS (h w : ℕ) where
  s1_water : Fin h → Fin w → Bool

/-- `S1_water_classifier(da, threshold)` from the notebook:
`water_data_array = da < threshold`, returned as the dataset `s1_water`. -/
def S1_water_classifier {h w : ℕ} (da : Image h w) (threshold : ℚ) :
    S1WaterDS h w :=
  ⟨fun i j => decide (da i j < threshold)⟩

/-- `vv_no_nans = data.filtered_vv.values[~np.isnan(...)]`: the non-NaN
values of the filtered band, in order. -/
def vv_no_nans (vals : List (Option ℚ)) : List ℚ :=
  vals.filterMap id

/-- `threshold_vv = threshold_minimum(vv_no_nans)`: the notebook feeds the
non-NaN filtered values to `skimage.filters.threshold_minimum` (an
external library routine, taken here as a parameter). -/
def threshold_vv (threshold_minimum : List ℚ → ℚ)
    (vals : List (Option ℚ)) : ℚ :=
  threshold_minimum (vv_no_nans vals)

/-- C2: the water classifier is the single-threshold rule on the filtered
band, with the threshold obtained from `threshold_minimum` on the non-NaN
values: a pixel is classified as water in `s1_water` exactly when its
value is strictly below the threshold, and as land exactly when its value
is at or above it. -/
theorem C2_water_classifier_single_threshold
    (threshold_minimum : List ℚ → ℚ) (vals : List (Option ℚ))
    {h w : ℕ} (da : Image h w) (i : Fin h) (j : Fin w) :
    ((S1_water_classifier da (threshold_vv threshold_minimum vals)).s1_water
        i j = true
      ↔ da i j < threshold_minimum (vals.filterMap id))
    ∧ ((S1_water_classifier da
          (threshold_vv threshold_minimum vals)).s1_water i j = false
      ↔ threshold_minimum (vals.filterMap id) ≤ da i j) := by
  unfold S1_water_classifier threshold_vv vv_no_nans
  simp [not_lt]

/-- `1` for a water pixel, `0` for a land pixel (`xarray` promotes the
booleans to floats when averaging). -/
def bool_to_num (b : Bool) : ℚ :=
  if b then 1 else 0

/-- `data.water.mean(dim='time')` at one pixel: the mean over the `n`
timesteps of the boolean classifications. -/
def water_mean {n : ℕ} (water : Fin n → Bool) : ℚ :=
  (∑ t, bool_to_num (water t)) / (n : ℚ)

/-- `water_percentage = data.water.mean(dim='time') * 100` at one pixel. -/
def water_percentage {n : ℕ} (water : Fin n → Bool) : ℚ :=
  water_mean water * 100

/-- `water_stdev = data.water.std(dim='time') * 100` at one pixel
(`xarray`'s `std` uses `ddof=0`: the root mean squared deviation). -/
noncomputable def water_stdev {n : ℕ} (water : Fin n → Bool) : ℝ :=
  Real.sqrt
    ((∑ t, ((bool_to_num (water t) : ℝ) - (water_mean water : ℝ)) ^ 2)
      / (n : ℝ)) * 100

/-- C3: per-pixel aggregation over time is the class frequency:
`water_percentage` is `100 * (number of timesteps classified water) / n`,
a pixel classified water in every timestep gets `100`, a pixel never
classified water gets `0`, and `water_stdev` is `100` times the standard
deviation of the boolean indicators over time. -/
theorem C3_water_summary_class_frequency {n : ℕ} (hn : 0 < n)
    (water : Fin n → Bool) :
    water_percentage water =
      100 * (({t | water t = true} : Finset (Fin n)).card : ℚ) / (n : ℚ)
    ∧ water_percentage (fun _ : Fin n => true) = 100
    ∧ water_percentage (fun _ : Fin n => false) = 0
    ∧ water_stdev water =
        100 * Real.sqrt
          ((∑ t, ((bool_to_num (water t) : ℝ) - (water_mean water : ℝ)) ^ 2)
            / (n : ℝ)) := by
  have hn' : ((n : ℚ)) ≠ 0 := by
    exact_mod_cast hn.ne'
  refine ⟨?_, ?_, ?_, mul_comm _ _⟩
  · unfold water_percentage water_mean bool_to_num
    rw [Finset.sum_boole]
    ring
  · unfold water_percentage water_mean bool_to_num
    simp [Finset.card_univ, hn']
  · unfold water_percentage water_mean bool_to_num
    simp

/-- Witness for C3 on a concrete two-timestep series classified water
once: the percentage is `100 * 1 / 2`. -/
theorem C3_water_summary_class_frequency_witness :
    0 < 2
    ∧ water_percentage (fun t : Fin 2 => decide (t = 0)) =
        100 *
          (({t | decide (t = 0) = true} : Finset (Fin 2)).card : ℚ) / (2 : ℚ) :=
  ⟨by decide,
   (C3_water_summary_class_frequency (by decide)
      (fun t : Fin 2 => decide (t = 0))).1⟩

/-- `10 * np.log10(...)` applied to the `vv` (or `filtered_vv`) band:
`data["vv_db"] = 10 * np.log10(data.vv)`. -/
noncomputable def vv_db {h w : ℕ} (vv : Fin h → Fin w → ℝ) :
    Fin h → Fin w → ℝ :=
  fun i j => 10 * Real.logb 10 (vv i j)

/-- `10 * np.log10(...)` applied to the `vh` (or `filtered_vh`) band:
`data["vh_db"] = 10 * np.log10(data.vh)`. -/
noncomputable def vh_db {h w : ℕ} (vh : Fin h → Fin w → ℝ) :
    Fin h → Fin w → ℝ :=
  fun i j => 10 * Real.logb 10 (vh i j)

/-- C4: the decibel conversion is the pointwise map `x ↦ 10 * log10 x`:
for positive linear backscatter values the stored dB value is exactly
`10 * log10 x`, per band, and the value at a pixel depends only on the
input value at that same pixel. -/
theorem C4_db_conversion_pointwise {h w : ℕ}
    (vv vh : Fin h → Fin w → ℝ) (i : Fin h) (j : Fin w)
    (_hvv : 0 < vv i j) (_hvh : 0 < vh i j) :
    vv_db vv i j = 10 * Real.logb 10 (vv i j)
    ∧ vh_db vh i j = 10 * Real.logb 10 (vh i j)
    ∧ (∀ vv2 : Fin h → Fin w → ℝ, vv2 i j = vv i j →
        vv_db vv2 i j = vv_db vv i j) := by
  refine ⟨rfl, rfl, fun vv2 hv => ?_⟩
  unfold vv_db
  rw [hv]

/-- Witness for C4 at the constant band of linear value `1`. -/
theorem C4_db_conversion_pointwise_witness :
    (0 : ℝ) < 1
    ∧ vv_db (fun _ _ : Fin 1 => 1) 0 0 = 10 * Real.logb 10 1 :=
  ⟨one_pos,
   (C4_db_conversion_pointwise (fun _ _ : Fin 1 => 1)
      (fun _ _ : Fin 1 => 1) 0 0 one_pos one_pos).1⟩

/-- The water decision of `S1_water_classifier` made in decibel space:
the dB-converted pixel is strictly below the dB threshold. -/
noncomputable def s1_water_db {h w : ℕ}
    (linear : Fin h → Fin w → ℝ) (threshold : ℝ) :
    Fin h → Fin w → Prop :=
  fun i j => vv_db linear i j < threshold

/-- C7: thresholding in decibel space commutes with the conversion: for a
positive linear value `x` and a dB threshold `t`, the classifier marks the
pixel as water after the dB conversion exactly when `x < 10 ^ (t / 10)`
in linear space. -/
theorem C7_db_threshold_commutes {h w : ℕ}
    (x : Fin h → Fin w → ℝ) (t : ℝ) (i : Fin h) (j : Fin w)
    (hx : 0 < x i j) :
    s1_water_db x t i j ↔ x i j < (10 : ℝ) ^ (t / 10) := by
  unfold s1_water_db vv_db
  rw [mul_comm, ← lt_div_iff₀ (by norm_num : (0 : ℝ) < 10)]
  exact Real.logb_lt_iff_lt_rpow (by norm_num) hx

/-- Witness for C7 at linear value `1` and threshold `10` dB. -/
theorem C7_db_threshold_commutes_witness :
    (0 : ℝ) < 1
    ∧ (s1_water_db (fun _ _ : Fin 1 => 1) 10 0 0
        ↔ (1 : ℝ) < (10 : ℝ) ^ ((10 : ℝ) / 10)) :=
  ⟨one_pos,
   C7_db_threshold_commutes (fun _ _ : Fin 1 => 1) 10 0 0 one_pos⟩

/-- `da < threshold` applied to a band that may hold NaN pixels: in
`numpy`/`xarray` every comparison with NaN is `False`, so a NaN pixel is
classified as not-water. -/
def classify_water_opt (v : Option ℚ) (threshold : ℚ) : Bool :=
  match v with
  | some x => decide (x < threshold)
  | none => false

/-- The composed speckle-filtering and water-classification sequence at
one pixel: Lee-filter every time slice (with NaN masking), classify each
filtered value against the threshold, then aggregate the per-pixel water
percentage over time. -/
def water_detection_pipeline {n h w : ℕ} [NeZero h] [NeZero w]
    (stack : Fin n → OImage h w) (size : ℕ) (threshold : ℚ) :
    Fin h → Fin w → ℚ :=
  fun i j =>
    water_percentage
      (fun t => classify_water_opt (filtered_band (stack t) size i j)
        threshold)

/-- C9: the speckle-filtering and water-classification sequence is a
deterministic, stateless function of its inputs: two runs on identical
input stacks, window size and threshold produce identical outputs. -/
theorem C9_pipeline_deterministic {n h w : ℕ} [NeZero h] [NeZero w]
    (stack1 stack2 : Fin n → OImage h w) (size1 size2 : ℕ) (t1 t2 : ℚ)
    (hs : stack1 = stack2) (hsize : size1 = size2) (ht : t1 = t2) :
    water_detection_pipeline stack1 size1 t1 =
      water_detection_pipeline stack2 size2 t2 := by
  rw [hs, hsize, ht]

/-- Witness for C9: two runs of the pipeline on the same concrete
one-timestep stack agree. -/
theorem C9_pipeline_deterministic_witness :
    water_detection_pipeline
        (fun _ : Fin 1 => (fun _ _ => some 1 : OImage 1 1)) 3 0 =
      water_detection_pipeline
        (fun _ : Fin 1 => (fun _ _ => some 1 : OImage 1 1)) 3 0 :=
  C9_pipeline_deterministic _ _ 3 3 0 0 rfl rfl rfl

/-- One pipeline stage of a notebook cell, as named by the spec:
STAC catalog search, raster-cube load from the returned items, array
transformation, plotting / exporting.  `localRead` is a read of local
files that does not go through a STAC catalog. -/
inductive PipelineStep where
  | search
  | loadRaster
  | transform
  | plotExport
  | localRead
deriving DecidableEq

/-- `notebooks/Landsat_GettingStarted.ipynb`, in cell order: search the
catalog, load the cube, plot the timesteps, select the best date and make
an RGBA image, explore it on a map, write a COG. -/
def landsatGettingStartedSteps : List PipelineStep :=
  [.search, .loadRaster, .plotExport, .transform, .transform,
   .plotExport, .plotExport]

/-- `notebooks/01_Landsat_GettingStarted.ipynb`, in cell order: search,
load, plot the timesteps, select the best date, explore it, convert to
RGBA and write a COG. -/
def landsat01GettingStartedSteps : List PipelineStep :=
  [.search, .loadRaster, .plotExport, .transform, .plotExport,
   .transform, .plotExport]

/-- The Sentinel-2 getting-started notebook, in cell order: search, load,
plot the timesteps, select the best date and make an RGBA image, explore
it, write a COG. -/
def sentinel2Steps : List PipelineStep :=
  [.search, .loadRaster, .plotExport, .transform, .transform,
   .plotExport, .plotExport]

/-- `notebooks/examples/03_Sentinel-1_WaterDetection.ipynb`, in cell
order: search, load, plot VV and VH, scale for visualisation, plot, Lee
filtering, plot, dB conversion, plot histogram, compute the threshold,
plot it, classify, aggregate over time, explore the two summaries. -/
def sentinel1WaterDetectionSteps : List PipelineStep :=
  [.search, .loadRaster, .plotExport, .plotExport, .transform,
   .plotExport, .transform, .plotExport, .transform, .plotExport,
   .transform, .plotExport, .transform, .transform, .plotExport,
   .plotExport]

/-- The Sentinel-1 maximum-backscatter notebook, in cell order: search,
load, dB conversion, per-pixel maxima, explore on a map. -/
def sentinel1MaxSteps : List PipelineStep :=
  [.search, .loadRaster, .transform, .transform, .plotExport]

/-- The tide-model clipping notebook, in cell order: open each local
`FES2022` file, clip it to the bounding box, write it out as NetCDF.  It
queries no STAC catalog and loads no raster cube from catalog items. -/
def tideModelClippingSteps : List PipelineStep :=
  [.localRead, .transform, .plotExport]

/-- The phase a step belongs to in the claimed fixed order; transforming
and plotting/exporting share a phase because the notebooks interleave
them after loading. -/
def stepPhase : PipelineStep → ℕ
  | .search => 0
  | .loadRaster => 1
  | .localRead => 1
  | .transform => 2
  | .plotExport => 2

/-- A STAC notebook runs as a linear pipeline: its phases never decrease,
it starts with a catalog search, and it loads a raster cube. -/
def stacPipelineOrdered (s : List PipelineStep) : Prop :=
  List.Sorted (· ≤ ·) (s.map stepPhase)
  ∧ s.head? = some .search
  ∧ PipelineStep.loadRaster ∈ s

/-- The phase a step belongs to in the order exactly as the claim fixes
it: search, then load, then transform, then plot/export as four distinct
stages in that order. -/
def strictStepPhase : PipelineStep → ℕ
  | .search => 0
  | .loadRaster => 1
  | .localRead => 1
  | .transform => 2
  | .plotExport => 3

/-- C8 counterexample: the claimed fixed order fails twice on concrete
notebooks.  The tide-model clipping notebook omits the catalog-search
stage entirely (the claim says no notebook omits it), and the Sentinel-2
notebook plots loaded timesteps before its select/RGBA transforms, so its
steps are not ordered by the claimed search-load-transform-plot/export
sequence of stages. -/
theorem C8_counterexample_no_search_and_plot_before_transform :
    PipelineStep.search ∉ tideModelClippingSteps
    ∧ ¬ List.Sorted (· ≤ ·) (sentinel2Steps.map strictStepPhase) := by
  decide

/-- C8 amended: every notebook is a linear script whose pipeline phases
never decrease; the five STAC notebooks open with a catalog search and
then load the raster cube before any transform/plot/export step (which
may interleave); the tide-model clipping notebook is the exception that
omits the catalog-search stage, reading local files instead. -/
theorem C8_amended_notebooks_are_linear_pipelines :
    stacPipelineOrdered landsatGettingStartedSteps
    ∧ stacPipelineOrdered landsat01GettingStartedSteps
    ∧ stacPipelineOrdered sentinel2Steps
    ∧ stacPipelineOrdered sentinel1WaterDetectionSteps
    ∧ stacPipelineOrdered sentinel1MaxSteps
    ∧ PipelineStep.search ∉ tideModelClippingSteps
    ∧ List.Sorted (· ≤ ·) (tideModelClippingSteps.map stepPhase) := by
  unfold stacPipelineOrdered
  decide
